import Mathlib

/-!
Verification of the Collins dictionary entry parser
(`CollinsHTMLParser` and `parse_collins_html` in `scripts/import_mdx.py`).

The parser is a single-pass event parser: the Python `html.parser.HTMLParser`
tokenizer delivers start-tag, end-tag and text events in document order, and
the handlers `handle_starttag`, `handle_endtag` and `handle_data` fold them
over a mutable state.  We embed that state as the structure `ParserState`,
the three handlers as pure state-transformers, and a whole parse as a fold of
`step` over a list of `Event`s.

Embedding conventions:
* the Python tag stack is a list appended/popped at the end with
  `depth = len(stack)`; we model it head-as-top (`push = cons`,
  `pop = tail`, top = head, `depth = length`), which is the same stack;
* Python truthiness of a string is `≠ ""`; truthiness of `self._current_def`
  (a dict or `None`) is `Option.isSome`;
* `data.strip()` is modelled by `pyStrip` (drop whitespace at both ends);
  `html[:500]` by `pySlice`; `re.match(r"^[a-zA-Z\-' ]+$", text)` by
  `isFormText`; Python's substring test `needle in hay` by `strIn`;
* `dict(attrs).get("class", "")` keeps the last binding of a key, modelled
  by `attrsClass`.
-/

/-- Python `needle in hay` on lists of characters: `needle` occurs as a
contiguous sublist of `hay`. -/
def listIn (needle : List Char) : List Char → Bool
  | [] => needle.isEmpty
  | c :: t => needle.isPrefixOf (c :: t) || listIn needle t

/-- Python substring test `needle in hay` for strings. -/
def strIn (needle hay : String) : Bool :=
  listIn needle.data hay.data

/-- Python `s.strip()`: remove whitespace from both ends. -/
def pyStrip (s : String) : String :=
  String.mk (((s.data.dropWhile Char.isWhitespace).reverse.dropWhile
      Char.isWhitespace).reverse)

/-- Python `s[:n]` (slicing by code points). -/
def pySlice (s : String) (n : Nat) : String :=
  String.mk (s.data.take n)

/-- `re.match(r"^[a-zA-Z\-' ]+$", text)`: one or more characters, each an
ASCII letter, a hyphen, an apostrophe or a space. -/
def isFormText (s : String) : Bool :=
  !s.data.isEmpty &&
    s.data.all (fun c => c.isAlpha || c == '-' || c == '\'' || c == ' ')

/-- `dict(attrs).get("class", "")`: the value of the last `"class"` binding,
or `""` when there is none. -/
def attrsClass (attrs : List (String × String)) : String :=
  (attrs.foldl (fun acc p => if p.1 == "class" then some p.2 else acc)
    none).getD ""

/-- One sense definition (`self._current_def` dictionary).  An example pair
is `(en, cn)`. -/
structure SenseDef where
  num : String
  pos : String
  cn : String
  en : String
  examples : List (String × String)
  synonyms : List String
deriving Repr, DecidableEq

/-- The fresh sense definition built when a `collins_en_cn example` div
opens. -/
def freshDef : SenseDef :=
  { num := "", pos := "", cn := "", en := "", examples := [], synonyms := [] }

/-- The whole mutable state of `CollinsHTMLParser` (the `result` dictionary
fields while still lists, plus every `self._*` tracking attribute). -/
structure ParserState where
  word : String
  phonetic_uk : List String
  phonetic_us : List String
  forms : List String
  definitions : List SenseDef
  tag_stack : List (String × String)
  in_word_key : Bool
  in_pron_uk : Bool
  in_pron_us : Bool
  pron_uk_depth : Nat
  pron_us_depth : Nat
  current_pron_uk : String
  current_pron_us : String
  in_form_inflected : Bool
  in_orth : Bool
  orth_depth : Nat
  in_example : Bool
  in_caption : Bool
  in_def_cn : Bool
  def_cn_depth : Nat
  in_chinese_text : Bool
  chinese_text_depth : Nat
  in_num : Bool
  in_st : Bool
  in_li : Bool
  in_li_p : Bool
  li_p_count : Nat
  current_def : Option SenseDef
  current_example_en : String
  current_example_cn : String
  collecting_en_def : Bool
  frequency_count : Nat
deriving Repr, DecidableEq

/-- `CollinsHTMLParser.__init__`. -/
def initState : ParserState :=
  { word := "", phonetic_uk := [], phonetic_us := [], forms := []
    definitions := [], tag_stack := []
    in_word_key := false, in_pron_uk := false, in_pron_us := false
    pron_uk_depth := 0, pron_us_depth := 0
    current_pron_uk := "", current_pron_us := ""
    in_form_inflected := false, in_orth := false, orth_depth := 0
    in_example := false, in_caption := false
    in_def_cn := false, def_cn_depth := 0
    in_chinese_text := false, chinese_text_depth := 0
    in_num := false, in_st := false, in_li := false, in_li_p := false
    li_p_count := 0, current_def := none
    current_example_en := "", current_example_cn := ""
    collecting_en_def := false, frequency_count := 0 }

/-- First dispatch chain of `handle_starttag` (the
`if tag == "span": ... elif tag == "div": ... elif tag == "a": ...`
block), run after the frame is pushed; `depth` is the stack depth after
the push. -/
def starttagChain1 (s : ParserState) (tag cls : String) (depth : Nat) :
    ParserState :=
  if tag == "span" then
    if strIn "word_key" cls then { s with in_word_key := true }
    else if strIn "pron type_uk" cls then
      { s with in_pron_uk := true, pron_uk_depth := depth,
               current_pron_uk := "" }
    else if strIn "pron type_us" cls then
      { s with in_pron_us := true, pron_us_depth := depth,
               current_pron_us := "" }
    else if cls == "num" then { s with in_num := true }
    else if cls == "st" then { s with in_st := true }
    else if strIn "level" cls && strIn "roundRed" cls then
      { s with frequency_count := s.frequency_count + 1 }
    else if strIn "def_cn" cls && strIn "cn_before" cls then
      { s with in_def_cn := true, def_cn_depth := depth }
    else if strIn "chinese-text" cls then
      { s with in_chinese_text := true, chinese_text_depth := depth }
    else s
  else if tag == "div" then
    if strIn "form_inflected" cls then { s with in_form_inflected := true }
    else if strIn "collins_en_cn example" cls then
      { s with in_example := true, current_def := some freshDef }
    else if strIn "caption" cls && strIn "hide_cn" cls then
      { s with in_caption := true, collecting_en_def := true }
    else s
  else if tag == "a" then
    if s.in_form_inflected && strIn "orth" cls then
      { s with in_orth := true, orth_depth := depth }
    else s
  else s

/-- Second dispatch chain of `handle_starttag` (the separate
`if tag == "span" and self._in_form_inflected and "orth" in current_class:
... elif tag == "li": ... elif tag == "p": ...` block). -/
def starttagChain2 (s : ParserState) (tag cls : String) (depth : Nat) :
    ParserState :=
  if tag == "span" && s.in_form_inflected && strIn "orth" cls then
    { s with in_orth := true, orth_depth := depth }
  else if tag == "li" then
    if s.in_example then
      { s with in_li := true, li_p_count := 0,
               current_example_en := "", current_example_cn := "" }
    else s
  else if tag == "p" then
    if s.in_li then
      { s with in_li_p := true, li_p_count := s.li_p_count + 1 }
    else s
  else s

/-- `CollinsHTMLParser.handle_starttag`. -/
def handle_starttag (s : ParserState) (tag : String)
    (attrs : List (String × String)) : ParserState :=
  let cls := attrsClass attrs
  let s' := { s with tag_stack := (tag, cls) :: s.tag_stack }
  let depth := s'.tag_stack.length
  starttagChain2 (starttagChain1 s' tag cls depth) tag cls depth

/-- The `tag == "span"` branch of `handle_endtag`; `depth` is the stack
depth before the pop. -/
def endtagSpan (s : ParserState) (depth : Nat) : ParserState :=
  if s.in_pron_uk && depth == s.pron_uk_depth then
    let pron := pyStrip s.current_pron_uk
    let s := if pron ≠ "" then
        { s with phonetic_uk := s.phonetic_uk ++ [pron] }
      else s
    { s with in_pron_uk := false, current_pron_uk := "" }
  else if s.in_pron_us && depth == s.pron_us_depth then
    let pron := pyStrip s.current_pron_us
    let s := if pron ≠ "" then
        { s with phonetic_us := s.phonetic_us ++ [pron] }
      else s
    { s with in_pron_us := false, current_pron_us := "" }
  else if s.in_word_key then { s with in_word_key := false }
  else if s.in_num then { s with in_num := false }
  else if s.in_st then { s with in_st := false }
  else if s.in_chinese_text && depth == s.chinese_text_depth then
    { s with in_chinese_text := false }
  else if s.in_def_cn && depth == s.def_cn_depth then
    { s with in_def_cn := false }
  else if s.in_orth && depth == s.orth_depth then
    { s with in_orth := false }
  else s

/-- The class attribute of the top stack frame (`self._tag_stack[-1][1]`),
`""` when the stack is empty (the code guards with
`self._tag_stack and ...`, so the default is never consulted). -/
def topClass (s : ParserState) : String :=
  match s.tag_stack with
  | [] => ""
  | f :: _ => f.2

/-- The `tag == "div"` branch of `handle_endtag`: three sequential `if`
statements (example close, caption close, form_inflected close). -/
def endtagDiv (s : ParserState) : ParserState :=
  let s :=
    if s.in_example then
      if !s.tag_stack.isEmpty && strIn "collins_en_cn example" (topClass s)
      then
        let s :=
          match s.current_def with
          | some d =>
            if d.en ≠ "" || d.cn ≠ "" then
              { s with definitions := s.definitions ++ [d] }
            else s
          | none => s
        { s with in_example := false, current_def := none }
      else s
    else s
  let s :=
    if s.in_caption && (!s.tag_stack.isEmpty && strIn "caption" (topClass s))
    then { s with in_caption := false, collecting_en_def := false }
    else s
  if s.in_form_inflected &&
      (!s.tag_stack.isEmpty && strIn "form_inflected" (topClass s)) then
    { s with in_form_inflected := false }
  else s

/-- Inner body of the `tag == "li"` branch: append the buffered example
pair to the open sense definition if one side is non-empty. -/
def appendExample (s : ParserState) (d : SenseDef) : ParserState :=
  let en := pyStrip s.current_example_en
  let cn := pyStrip s.current_example_cn
  if en ≠ "" || cn ≠ "" then
    let d' : SenseDef := { d with examples := d.examples ++ [(en, cn)] }
    { s with current_def := some d' }
  else s

/-- The `tag == "li"` branch of `handle_endtag`: the example append is
guarded by `self._in_li and self._current_def`, the flag resets are
unconditional. -/
def endtagLi (s : ParserState) : ParserState :=
  let s' :=
    match s.in_li, s.current_def with
    | true, some d => appendExample s d
    | _, _ => s
  { s' with in_li := false, in_li_p := false }

/-- The per-tag dispatch of `handle_endtag` (everything between the early
return and the final pop); `depth` is the stack depth before the pop. -/
def endtagDispatch (s : ParserState) (tag : String) (depth : Nat) :
    ParserState :=
  if tag == "span" then endtagSpan s depth
  else if tag == "div" then endtagDiv s
  else if tag == "a" then
    if s.in_orth && depth == s.orth_depth then { s with in_orth := false }
    else s
  else if tag == "li" then endtagLi s
  else if tag == "p" then { s with in_li_p := false }
  else s

/-- `CollinsHTMLParser.handle_endtag`: early return on an empty stack,
per-tag dispatch, then the unconditional pop of the stack's top frame. -/
def handle_endtag (s : ParserState) (tag : String) : ParserState :=
  if s.tag_stack.isEmpty then s
  else
    let s' := endtagDispatch s tag s.tag_stack.length
    { s' with tag_stack := s'.tag_stack.tail }

/-- Replace the current sense definition, when one is open. -/
def withDef (s : ParserState) (f : SenseDef → SenseDef) : ParserState :=
  match s.current_def with
  | some d => { s with current_def := some (f d) }
  | none => s

/-- Last section of the `handle_data` elif chain (`elif self._in_li: ...
elif self._collecting_en_def and ...: ... ` and the implicit final
no-op). -/
def dataChainLi (s : ParserState) (data text : String) : ParserState :=
  if s.in_li then
    if s.li_p_count == 1 then
      { s with current_example_en := s.current_example_en ++ data ++ " " }
    else if 2 ≤ s.li_p_count then
      { s with current_example_cn := s.current_example_cn ++ text }
    else s
  else if s.collecting_en_def && s.current_def.isSome &&
      !s.in_def_cn && !s.in_num && !s.in_st then
    withDef s (fun d => { d with en := d.en ++ data ++ " " })
  else s

/-- Middle section of the `handle_data` elif chain (the three
`elif self._in_num/_in_st/_in_def_cn and self._current_def:` tests),
falling through to `dataChainLi`. -/
def dataChainDef (s : ParserState) (data text : String) : ParserState :=
  if s.in_num && s.current_def.isSome then
    withDef s (fun d => { d with num := text })
  else if s.in_st && s.current_def.isSome then
    withDef s (fun d => { d with pos := pyStrip text })
  else if s.in_def_cn && s.current_def.isSome then
    withDef s (fun d =>
      if d.cn ≠ "" then { d with cn := d.cn ++ text }
      else { d with cn := text })
  else dataChainLi s data text

/-- `CollinsHTMLParser.handle_data`: blank-run guard, then the elif chain
(head section here, tail sections in `dataChainDef` / `dataChainLi`). -/
def handle_data (s : ParserState) (data : String) : ParserState :=
  let text := pyStrip data
  if text == "" then s
  else if s.in_word_key then { s with word := text }
  else if s.in_pron_uk then
    { s with current_pron_uk := s.current_pron_uk ++ data }
  else if s.in_pron_us then
    { s with current_pron_us := s.current_pron_us ++ data }
  else if s.in_orth then
    if isFormText text then { s with forms := s.forms ++ [text] } else s
  else dataChainDef s data text

/-- The seen-set de-duplication loop of `get_result` (first occurrence of
each form is kept, in encounter order). -/
def dedupFirst (l : List String) : List String :=
  l.foldl (fun acc f => if acc.contains f then acc else acc ++ [f]) []

/-- The finalized record returned by `get_result`: pronunciation lists
joined with `" / "`, star tally, de-duplicated forms. -/
structure CollinsResult where
  word : String
  phonetic_uk : String
  phonetic_us : String
  frequency : Nat
  forms : List String
  definitions : List SenseDef
deriving Repr, DecidableEq

/-- `CollinsHTMLParser.get_result`. -/
def get_result (s : ParserState) : CollinsResult :=
  { word := s.word
    phonetic_uk :=
      if s.phonetic_uk.isEmpty then ""
      else String.intercalate " / " s.phonetic_uk
    phonetic_us :=
      if s.phonetic_us.isEmpty then ""
      else String.intercalate " / " s.phonetic_us
    frequency := s.frequency_count
    forms := dedupFirst s.forms
    definitions := s.definitions }

/-- One tokenizer event: open tag with attributes, close tag, or text run. -/
inductive Event where
  | startTag (tag : String) (attrs : List (String × String))
  | endTag (tag : String)
  | text (data : String)
deriving Repr, DecidableEq

/-- Dispatch one event to the matching handler. -/
def step (s : ParserState) : Event → ParserState
  | .startTag tag attrs => handle_starttag s tag attrs
  | .endTag tag => handle_endtag s tag
  | .text data => handle_data s data

/-- Feed a whole event sequence to a fresh parser. -/
def feed (events : List Event) : ParserState :=
  events.foldl step initState

/-- Parse an event sequence and finalize: `parser.feed(html)` followed by
`parser.get_result()`. -/
def runParser (events : List Event) : CollinsResult :=
  get_result (feed events)

/-- Outcome of `parse_collins_html`: either a structured record or the
`{"error": ..., "raw_html": html[:500]}` dictionary. -/
inductive ParseOutcome where
  | ok (r : CollinsResult)
  | err (msg : String) (raw_html : String)
deriving Repr, DecidableEq

/-- `parse_collins_html`.  The tokenizer (`HTMLParser.feed`, Python standard
library, outside this repository) either delivers the entry's event stream
or raises; the `tokenize` argument abstracts that outcome.  The handlers and
`get_result` themselves are total, so the only exception source guarded by
the `try` is the tokenizer. -/
def parse_collins_html (html : String)
    (tokenize : Except String (List Event)) : ParseOutcome :=
  match tokenize with
  | .ok evs => .ok (runParser evs)
  | .error e => .err e (pySlice html 500)

/-! ## Helper facts -/

/-- A concrete state with one frame on the stack, used by witnesses. -/
def stackedState : ParserState :=
  { initState with tag_stack := [("span", "x")] }

theorem endtagSpan_tag_stack (s : ParserState) (n : Nat) :
    (endtagSpan s n).tag_stack = s.tag_stack := by
  simp only [endtagSpan]
  repeat' split
  all_goals rfl

theorem endtagDiv_tag_stack (s : ParserState) :
    (endtagDiv s).tag_stack = s.tag_stack := by
  simp only [endtagDiv]
  repeat' split
  all_goals rfl

theorem appendExample_tag_stack (s : ParserState) (d : SenseDef) :
    (appendExample s d).tag_stack = s.tag_stack := by
  simp only [appendExample]
  split
  all_goals rfl

theorem endtagLi_tag_stack (s : ParserState) :
    (endtagLi s).tag_stack = s.tag_stack := by
  simp only [endtagLi]
  split
  · exact appendExample_tag_stack _ _
  · rfl

theorem endtagDispatch_tag_stack (s : ParserState) (tag : String) (n : Nat) :
    (endtagDispatch s tag n).tag_stack = s.tag_stack := by
  simp only [endtagDispatch]
  repeat' split
  · exact endtagSpan_tag_stack s n
  · exact endtagDiv_tag_stack s
  all_goals first
    | rfl
    | exact endtagLi_tag_stack s

/-! ## Claims -/

/-- C3: a close event on an empty stack is a no-op (the handler returns the
state unchanged); otherwise exactly the top frame is popped, for every
closing tag name (no matching against the frame), so the stack never
underflows. -/
theorem c3_close_pop (s : ParserState) (tag : String) :
    (s.tag_stack = [] → handle_endtag s tag = s) ∧
    (handle_endtag s tag).tag_stack = s.tag_stack.tail := by
  constructor
  · intro h
    simp [handle_endtag, h]
  · unfold handle_endtag
    split
    · rename_i h
      rw [List.isEmpty_eq_true] at h
      simp [h]
    · show (endtagDispatch s tag s.tag_stack.length).tag_stack.tail
        = s.tag_stack.tail
      rw [endtagDispatch_tag_stack]

/-- Witness for C3 at concrete inputs: an empty-stack close is the
identity, and a close with one frame pops to the empty stack. -/
theorem c3_close_pop_witness :
    handle_endtag initState "div" = initState ∧
    (handle_endtag stackedState "span").tag_stack = stackedState.tag_stack.tail :=
  ⟨(c3_close_pop initState "div").1 rfl, (c3_close_pop stackedState "span").2⟩

/-- C4: `parse_collins_html` is total (both tokenizer outcomes map to a
returned record); when the internal parser raises, the caller receives a
record carrying the error indicator and a snippet `html[:500]` of the
original markup, whose length is at most 500 characters. -/
theorem c4_parse_never_raises (html msg : String) :
    parse_collins_html html (Except.error msg) =
      ParseOutcome.err msg (pySlice html 500) ∧
    (pySlice html 500).length ≤ 500 ∧
    (∀ evs, parse_collins_html html (Except.ok evs) =
      ParseOutcome.ok (runParser evs)) := by
  refine ⟨rfl, ?_, fun _ => rfl⟩
  show (html.data.take 500).length ≤ 500
  simp [List.length_take]

/-- Witness for C4 at a concrete entry and exception message. -/
theorem c4_parse_never_raises_witness :
    parse_collins_html "<div>" (Except.error "boom") =
      ParseOutcome.err "boom" (pySlice "<div>" 500) ∧
    (pySlice "<div>" 500).length ≤ 500 ∧
    (∀ evs, parse_collins_html "<div>" (Except.ok evs) =
      ParseOutcome.ok (runParser evs)) :=
  c4_parse_never_raises "<div>" "boom"

/-- Event sequence of a UK-pronunciation scope whose only text runs are
whitespace. -/
def blankPronEvents : List Event :=
  [.startTag "span" [("class", "pron type_uk")],
   .text "  ", .text " ", .endTag "span"]

/-- C10: a text run that is entirely whitespace is discarded before any
accumulator sees it — `handle_data` leaves the whole state unchanged — and
in particular a pronunciation scope containing only whitespace runs
appends no pronunciation. -/
theorem c10_blank_run_discarded (s : ParserState) (data : String)
    (h : pyStrip data = "") :
    handle_data s data = s ∧
    (runParser blankPronEvents).phonetic_uk = "" := by
  constructor
  · simp [handle_data, h]
  · rfl

/-- Witness for C10 at a concrete whitespace run. -/
theorem c10_blank_run_discarded_witness :
    pyStrip " \t " = "" ∧
    (handle_data stackedState " \t " = stackedState ∧
      (runParser blankPronEvents).phonetic_uk = "") :=
  ⟨rfl, c10_blank_run_discarded stackedState " \t " rfl⟩

/-- Event sequence with one word-form scope nested inside another
(`form_inflected` block, outer `a.orth`, inner `a.orth`): the inner
activation re-binds the owning depth of the shared `_in_orth` flag. -/
def nestedOrthEvents : List Event :=
  [.startTag "div" [("class", "form_inflected")],
   .startTag "a" [("class", "orth")],
   .text "run",
   .startTag "a" [("class", "orth")],
   .text "ran",
   .endTag "a",
   .text "ning",
   .endTag "a",
   .endTag "div"]

/-- C2 counterexample: closing an inner word-form scope DOES terminate the
outer word-form accumulation.  In `nestedOrthEvents` the outer `orth`
scope is activated at depth 2 and the inner at depth 3; the inner
activation overwrites the flag's owning depth, so the inner close clears
`_in_orth` and the outer scope's remaining text `"ning"` is lost. -/
theorem c2_counterexample :
    (runParser nestedOrthEvents).forms = ["run", "ran"] ∧
    "ning" ∉ (runParser nestedOrthEvents).forms := by
  have h : (runParser nestedOrthEvents).forms = ["run", "ran"] := rfl
  refine ⟨h, ?_⟩
  rw [h]
  decide

/-- `t` agrees with `s` on the depth-bound flags and the accumulation
state they guard. -/
def SameFlags (s t : ParserState) : Prop :=
  t.in_pron_uk = s.in_pron_uk ∧ t.current_pron_uk = s.current_pron_uk ∧
  t.phonetic_uk = s.phonetic_uk ∧ t.in_pron_us = s.in_pron_us ∧
  t.current_pron_us = s.current_pron_us ∧ t.in_def_cn = s.in_def_cn ∧
  t.in_chinese_text = s.in_chinese_text ∧ t.in_orth = s.in_orth

theorem sameFlags_rfl (s : ParserState) : SameFlags s s :=
  ⟨rfl, rfl, rfl, rfl, rfl, rfl, rfl, rfl⟩

theorem endtagSpan_sameFlags (s : ParserState) (n : Nat)
    (c1 : (s.in_pron_uk && n == s.pron_uk_depth) = false)
    (c2 : (s.in_pron_us && n == s.pron_us_depth) = false)
    (c3 : (s.in_chinese_text && n == s.chinese_text_depth) = false)
    (c4 : (s.in_def_cn && n == s.def_cn_depth) = false)
    (c5 : (s.in_orth && n == s.orth_depth) = false) :
    SameFlags s (endtagSpan s n) := by
  simp only [endtagSpan, c1, c2, c3, c4, c5, Bool.false_eq_true, if_false]
  repeat' split
  all_goals exact ⟨rfl, rfl, rfl, rfl, rfl, rfl, rfl, rfl⟩

theorem endtagDiv_sameFlags (s : ParserState) :
    SameFlags s (endtagDiv s) := by
  simp only [endtagDiv]
  repeat' split
  all_goals exact ⟨rfl, rfl, rfl, rfl, rfl, rfl, rfl, rfl⟩

theorem appendExample_sameFlags (s : ParserState) (d : SenseDef) :
    SameFlags s (appendExample s d) := by
  simp only [appendExample]
  split
  all_goals exact ⟨rfl, rfl, rfl, rfl, rfl, rfl, rfl, rfl⟩

theorem endtagLi_sameFlags (s : ParserState) :
    SameFlags s (endtagLi s) := by
  simp only [endtagLi]
  split
  · exact appendExample_sameFlags _ _
  · exact ⟨rfl, rfl, rfl, rfl, rfl, rfl, rfl, rfl⟩

theorem endtagDispatch_sameFlags (s : ParserState) (tag : String)
    (c1 : (s.in_pron_uk && s.tag_stack.length == s.pron_uk_depth) = false)
    (c2 : (s.in_pron_us && s.tag_stack.length == s.pron_us_depth) = false)
    (c3 : (s.in_chinese_text &&
      s.tag_stack.length == s.chinese_text_depth) = false)
    (c4 : (s.in_def_cn && s.tag_stack.length == s.def_cn_depth) = false)
    (c5 : (s.in_orth && s.tag_stack.length == s.orth_depth) = false) :
    SameFlags s (endtagDispatch s tag s.tag_stack.length) := by
  unfold endtagDispatch
  split
  · exact endtagSpan_sameFlags s _ c1 c2 c3 c4 c5
  split
  · exact endtagDiv_sameFlags s
  split
  · rw [c5]
    simp only [Bool.false_eq_true, if_false]
    exact sameFlags_rfl s
  split
  · exact endtagLi_sameFlags s
  split
  · exact ⟨rfl, rfl, rfl, rfl, rfl, rfl, rfl, rfl⟩
  · exact sameFlags_rfl s

theorem endtagSpan_uk_guard (s : ParserState) (n : Nat)
    (hc : (s.in_pron_uk && n == s.pron_uk_depth) = false) :
    (endtagSpan s n).in_pron_uk = s.in_pron_uk ∧
    (endtagSpan s n).current_pron_uk = s.current_pron_uk ∧
    (endtagSpan s n).phonetic_uk = s.phonetic_uk := by
  simp only [endtagSpan, hc, Bool.false_eq_true, if_false]
  repeat' split
  all_goals exact ⟨rfl, rfl, rfl⟩

theorem endtagSpan_us_guard (s : ParserState) (n : Nat)
    (hc : (s.in_pron_us && n == s.pron_us_depth) = false) :
    (endtagSpan s n).in_pron_us = s.in_pron_us ∧
    (endtagSpan s n).current_pron_us = s.current_pron_us ∧
    (endtagSpan s n).phonetic_us = s.phonetic_us := by
  simp only [endtagSpan, hc, Bool.false_eq_true, if_false]
  repeat' split
  all_goals exact ⟨rfl, rfl, rfl⟩

theorem endtagSpan_def_cn_guard (s : ParserState) (n : Nat)
    (hc : (s.in_def_cn && n == s.def_cn_depth) = false) :
    (endtagSpan s n).in_def_cn = s.in_def_cn := by
  simp only [endtagSpan, hc, Bool.false_eq_true, if_false]
  repeat' split
  all_goals rfl

theorem endtagSpan_chinese_guard (s : ParserState) (n : Nat)
    (hc : (s.in_chinese_text && n == s.chinese_text_depth) = false) :
    (endtagSpan s n).in_chinese_text = s.in_chinese_text := by
  simp only [endtagSpan, hc, Bool.false_eq_true, if_false]
  repeat' split
  all_goals rfl

theorem endtagSpan_orth_guard (s : ParserState) (n : Nat)
    (hc : (s.in_orth && n == s.orth_depth) = false) :
    (endtagSpan s n).in_orth = s.in_orth := by
  simp only [endtagSpan, hc, Bool.false_eq_true, if_false]
  repeat' split
  all_goals rfl

theorem endtagDispatch_uk_guard (s : ParserState) (tag : String) (n : Nat)
    (hc : (s.in_pron_uk && n == s.pron_uk_depth) = false) :
    (endtagDispatch s tag n).in_pron_uk = s.in_pron_uk ∧
    (endtagDispatch s tag n).current_pron_uk = s.current_pron_uk ∧
    (endtagDispatch s tag n).phonetic_uk = s.phonetic_uk := by
  unfold endtagDispatch
  split
  · exact endtagSpan_uk_guard s n hc
  split
  · obtain ⟨h1, h2, h3, _, _, _, _, _⟩ := endtagDiv_sameFlags s
    exact ⟨h1, h2, h3⟩
  split
  · split
    · exact ⟨rfl, rfl, rfl⟩
    · exact ⟨rfl, rfl, rfl⟩
  split
  · obtain ⟨h1, h2, h3, _, _, _, _, _⟩ := endtagLi_sameFlags s
    exact ⟨h1, h2, h3⟩
  split
  · exact ⟨rfl, rfl, rfl⟩
  · exact ⟨rfl, rfl, rfl⟩

theorem endtagDispatch_us_guard (s : ParserState) (tag : String) (n : Nat)
    (hc : (s.in_pron_us && n == s.pron_us_depth) = false) :
    (endtagDispatch s tag n).in_pron_us = s.in_pron_us ∧
    (endtagDispatch s tag n).current_pron_us = s.current_pron_us := by
  unfold endtagDispatch
  split
  · obtain ⟨h1, h2, _⟩ := endtagSpan_us_guard s n hc
    exact ⟨h1, h2⟩
  split
  · obtain ⟨_, _, _, h4, h5, _, _, _⟩ := endtagDiv_sameFlags s
    exact ⟨h4, h5⟩
  split
  · split
    · exact ⟨rfl, rfl⟩
    · exact ⟨rfl, rfl⟩
  split
  · obtain ⟨_, _, _, h4, h5, _, _, _⟩ := endtagLi_sameFlags s
    exact ⟨h4, h5⟩
  split
  · exact ⟨rfl, rfl⟩
  · exact ⟨rfl, rfl⟩

theorem endtagDispatch_def_cn_guard (s : ParserState) (tag : String)
    (n : Nat) (hc : (s.in_def_cn && n == s.def_cn_depth) = false) :
    (endtagDispatch s tag n).in_def_cn = s.in_def_cn := by
  unfold endtagDispatch
  split
  · exact endtagSpan_def_cn_guard s n hc
  split
  · exact (endtagDiv_sameFlags s).2.2.2.2.2.1
  split
  · split
    · rfl
    · rfl
  split
  · exact (endtagLi_sameFlags s).2.2.2.2.2.1
  split
  · rfl
  · rfl

theorem endtagDispatch_chinese_guard (s : ParserState) (tag : String)
    (n : Nat)
    (hc : (s.in_chinese_text && n == s.chinese_text_depth) = false) :
    (endtagDispatch s tag n).in_chinese_text = s.in_chinese_text := by
  unfold endtagDispatch
  split
  · exact endtagSpan_chinese_guard s n hc
  split
  · exact (endtagDiv_sameFlags s).2.2.2.2.2.2.1
  split
  · split
    · rfl
    · rfl
  split
  · exact (endtagLi_sameFlags s).2.2.2.2.2.2.1
  split
  · rfl
  · rfl

theorem endtagDispatch_orth_guard (s : ParserState) (tag : String) (n : Nat)
    (hc : (s.in_orth && n == s.orth_depth) = false) :
    (endtagDispatch s tag n).in_orth = s.in_orth := by
  unfold endtagDispatch
  split
  · exact endtagSpan_orth_guard s n hc
  split
  · exact (endtagDiv_sameFlags s).2.2.2.2.2.2.2
  split
  · split
    · simp_all
    · rfl
  split
  · exact (endtagLi_sameFlags s).2.2.2.2.2.2.2
  split
  · rfl
  · rfl

/-- C2 (amended): each depth-bound flag, taken individually, is cleared
only by a close event observed while the current stack depth equals the
depth of that flag's MOST RECENT activation.  For every state, every
closing tag name and every flag, if the flag is active and the current
depth differs from its owning depth, the close event leaves the flag set
and its accumulation state untouched — so an inner same-tag scope that
does not re-activate the flag cannot terminate the outer accumulation.
(The original claim fails when the inner scope re-activates the same
flag, which overwrites the owning depth; see the counterexample.) -/
theorem c2_amended_depth_guard (s : ParserState) (tag : String) :
    (s.in_pron_uk = true → s.tag_stack.length ≠ s.pron_uk_depth →
      (handle_endtag s tag).in_pron_uk = true ∧
      (handle_endtag s tag).current_pron_uk = s.current_pron_uk ∧
      (handle_endtag s tag).phonetic_uk = s.phonetic_uk) ∧
    (s.in_pron_us = true → s.tag_stack.length ≠ s.pron_us_depth →
      (handle_endtag s tag).in_pron_us = true ∧
      (handle_endtag s tag).current_pron_us = s.current_pron_us) ∧
    (s.in_def_cn = true → s.tag_stack.length ≠ s.def_cn_depth →
      (handle_endtag s tag).in_def_cn = true) ∧
    (s.in_chinese_text = true → s.tag_stack.length ≠ s.chinese_text_depth →
      (handle_endtag s tag).in_chinese_text = true) ∧
    (s.in_orth = true → s.tag_stack.length ≠ s.orth_depth →
      (handle_endtag s tag).in_orth = true) := by
  refine ⟨?_, ?_, ?_, ?_, ?_⟩
  · intro hf hd
    have hc : (s.in_pron_uk && s.tag_stack.length == s.pron_uk_depth)
        = false := by simp [hf, hd]
    unfold handle_endtag
    split
    · exact ⟨hf, rfl, rfl⟩
    · obtain ⟨h1, h2, h3⟩ := endtagDispatch_uk_guard s tag
        s.tag_stack.length hc
      exact ⟨h1.trans hf, h2, h3⟩
  · intro hf hd
    have hc : (s.in_pron_us && s.tag_stack.length == s.pron_us_depth)
        = false := by simp [hf, hd]
    unfold handle_endtag
    split
    · exact ⟨hf, rfl⟩
    · obtain ⟨h1, h2⟩ := endtagDispatch_us_guard s tag
        s.tag_stack.length hc
      exact ⟨h1.trans hf, h2⟩
  · intro hf hd
    have hc : (s.in_def_cn && s.tag_stack.length == s.def_cn_depth)
        = false := by simp [hf, hd]
    unfold handle_endtag
    split
    · exact hf
    · exact (endtagDispatch_def_cn_guard s tag
        s.tag_stack.length hc).trans hf
  · intro hf hd
    have hc : (s.in_chinese_text &&
        s.tag_stack.length == s.chinese_text_depth) = false := by
      simp [hf, hd]
    unfold handle_endtag
    split
    · exact hf
    · exact (endtagDispatch_chinese_guard s tag
        s.tag_stack.length hc).trans hf
  · intro hf hd
    have hc : (s.in_orth && s.tag_stack.length == s.orth_depth)
        = false := by simp [hf, hd]
    unfold handle_endtag
    split
    · exact hf
    · exact (endtagDispatch_orth_guard s tag
        s.tag_stack.length hc).trans hf

/-- A concrete state whose ONLY active accumulation is a word-form scope
owned at depth 5, while the stack holds a single frame (depth 1) — the
configuration of the counterexample's outer scope. -/
def orthOnlyState : ParserState :=
  { initState with
      tag_stack := [("a", "orth")]
      in_orth := true, orth_depth := 5 }

/-- A concrete state whose only active accumulation is a UK pronunciation
scope owned at depth 5, with one frame on the stack. -/
def ukOnlyState : ParserState :=
  { initState with
      tag_stack := [("span", "x")]
      in_pron_uk := true, pron_uk_depth := 5, current_pron_uk := "k" }

/-- Witness for the amended C2: with a lone active flag, a close event at
depth 1 does not clear a flag owned at depth 5 — for the word-form flag
(an inner `a` close) and for the UK pronunciation flag (an inner `span`
close). -/
theorem c2_amended_depth_guard_witness :
    ((handle_endtag ukOnlyState "span").in_pron_uk = true ∧
      (handle_endtag ukOnlyState "span").current_pron_uk
        = ukOnlyState.current_pron_uk ∧
      (handle_endtag ukOnlyState "span").phonetic_uk
        = ukOnlyState.phonetic_uk) ∧
    (handle_endtag orthOnlyState "a").in_orth = true :=
  ⟨(c2_amended_depth_guard ukOnlyState "span").1 rfl (by decide),
   (c2_amended_depth_guard orthOnlyState "a").2.2.2.2 rfl (by decide)⟩

/-- Event sequence in which the Chinese-gloss span's class contains
`"cn_after"` alongside `"def_cn"` and `"cn_before"`. -/
def cnAfterEvents : List Event :=
  [.startTag "div" [("class", "collins_en_cn example")],
   .startTag "span" [("class", "def_cn cn_before cn_after")],
   .text "X",
   .endTag "span",
   .endTag "div"]

/-- C1 counterexample: the activation test is
`"def_cn" in cls and "cn_before" in cls` with no exclusion of
`"cn_after"`, so a scope whose class contains `"cn_after"` (together with
the other two markers) DOES contribute its text to the Chinese gloss: the
parsed sense definition carries gloss `"X"` taken from inside that
scope. -/
theorem c1_counterexample :
    strIn "cn_after" "def_cn cn_before cn_after" = true ∧
    (runParser cnAfterEvents).definitions.map SenseDef.cn = ["X"] :=
  ⟨rfl, rfl⟩

/-- C1 (amended): on a `span` open event that none of the earlier
classifiers claims (not a word key, not a UK/US pronunciation, not an
exact `"num"`/`"st"`, not a star marker), Chinese-gloss accumulation is
activated exactly when the class attribute contains both `"def_cn"` and
`"cn_before"` — the presence or absence of `"cn_after"` is not consulted,
so a class carrying all three markers still activates accumulation. -/
theorem c1_amended_activation (s : ParserState)
    (attrs : List (String × String))
    (h1 : strIn "word_key" (attrsClass attrs) = false)
    (h2 : strIn "pron type_uk" (attrsClass attrs) = false)
    (h3 : strIn "pron type_us" (attrsClass attrs) = false)
    (h4 : (attrsClass attrs == "num") = false)
    (h5 : (attrsClass attrs == "st") = false)
    (h6 : (strIn "level" (attrsClass attrs)
        && strIn "roundRed" (attrsClass attrs)) = false) :
    (handle_starttag s "span" attrs).in_def_cn =
      ((strIn "def_cn" (attrsClass attrs)
        && strIn "cn_before" (attrsClass attrs)) || s.in_def_cn) := by
  unfold handle_starttag starttagChain1 starttagChain2
  simp only [h1, h2, h3, h4, h5, h6, beq_self_eq_true, if_true,
    Bool.false_eq_true, if_false]
  repeat' split
  all_goals simp_all

/-- Witness for the amended C1 at the counterexample class string: the
activation fires even though the class contains `"cn_after"`. -/
theorem c1_amended_activation_witness :
    (handle_starttag initState "span"
        [("class", "def_cn cn_before cn_after")]).in_def_cn =
      ((strIn "def_cn" (attrsClass [("class", "def_cn cn_before cn_after")])
        && strIn "cn_before"
          (attrsClass [("class", "def_cn cn_before cn_after")]))
        || initState.in_def_cn) :=
  c1_amended_activation initState [("class", "def_cn cn_before cn_after")]
    rfl rfl rfl rfl rfl rfl

/-- C9 counterexample: the pronunciation test is for the single contiguous
substring `"pron type_uk"`, not for the two substrings `"pron"` and
`"type_uk"` separately.  The class `"type_uk pron"` contains both markers,
yet the open event activates nothing — the state is unchanged except for
the pushed frame. -/
theorem c9_counterexample :
    strIn "pron" "type_uk pron" = true ∧
    strIn "type_uk" "type_uk pron" = true ∧
    handle_starttag initState "span" [("class", "type_uk pron")] =
      { initState with tag_stack := [("span", "type_uk pron")] } :=
  ⟨rfl, rfl, rfl⟩

/-- C9 (amended): classification is substring-based with the contiguous
class substring `"pron type_uk"` (resp. `"pron type_us"`) required for UK
(resp. US) pronunciation accumulation; a class containing `"pron"` alone
activates nothing; sense-number and part-of-speech capture require the
class attribute to be exactly `"num"` or exactly `"st"`.  Each equation
holds on a `span` open event once the earlier branches of the classifier
chain decline the frame. -/
theorem handle_starttag_eq (s : ParserState) (tag : String)
    (attrs : List (String × String)) :
    handle_starttag s tag attrs =
      starttagChain2
        (starttagChain1
          { s with tag_stack := (tag, attrsClass attrs) :: s.tag_stack }
          tag (attrsClass attrs) (s.tag_stack.length + 1))
        tag (attrsClass attrs) (s.tag_stack.length + 1) := rfl

theorem starttagChain2_classifierFields (s : ParserState) (tag cls : String)
    (n : Nat) :
    (starttagChain2 s tag cls n).in_pron_uk = s.in_pron_uk ∧
    (starttagChain2 s tag cls n).in_pron_us = s.in_pron_us ∧
    (starttagChain2 s tag cls n).in_num = s.in_num ∧
    (starttagChain2 s tag cls n).in_st = s.in_st ∧
    (starttagChain2 s tag cls n).in_def_cn = s.in_def_cn := by
  unfold starttagChain2
  repeat' split
  all_goals exact ⟨rfl, rfl, rfl, rfl, rfl⟩

theorem starttagChain1_span_uk (s : ParserState) (cls : String) (n : Nat)
    (h1 : strIn "word_key" cls = false) :
    (starttagChain1 s "span" cls n).in_pron_uk =
      (strIn "pron type_uk" cls || s.in_pron_uk) := by
  unfold starttagChain1
  simp only [beq_self_eq_true, if_true, h1, Bool.false_eq_true, if_false]
  repeat' split
  all_goals simp_all

theorem starttagChain1_span_us (s : ParserState) (cls : String) (n : Nat)
    (h1 : strIn "word_key" cls = false)
    (huk : strIn "pron type_uk" cls = false) :
    (starttagChain1 s "span" cls n).in_pron_us =
      (strIn "pron type_us" cls || s.in_pron_us) := by
  unfold starttagChain1
  simp only [beq_self_eq_true, if_true, h1, huk, Bool.false_eq_true,
    if_false]
  repeat' split
  all_goals simp_all

theorem starttagChain1_span_num (s : ParserState) (cls : String) (n : Nat)
    (h1 : strIn "word_key" cls = false)
    (huk : strIn "pron type_uk" cls = false)
    (hus : strIn "pron type_us" cls = false) :
    (starttagChain1 s "span" cls n).in_num =
      ((cls == "num") || s.in_num) := by
  unfold starttagChain1
  simp only [beq_self_eq_true, if_true, h1, huk, hus, Bool.false_eq_true,
    if_false]
  repeat' split
  all_goals simp_all

theorem starttagChain1_span_st (s : ParserState) (cls : String) (n : Nat)
    (h1 : strIn "word_key" cls = false)
    (huk : strIn "pron type_uk" cls = false)
    (hus : strIn "pron type_us" cls = false)
    (hnum : (cls == "num") = false) :
    (starttagChain1 s "span" cls n).in_st =
      ((cls == "st") || s.in_st) := by
  unfold starttagChain1
  simp only [beq_self_eq_true, if_true, h1, huk, hus, hnum,
    Bool.false_eq_true, if_false]
  repeat' split
  all_goals simp_all

theorem c9_amended_classifier (s : ParserState)
    (attrs : List (String × String))
    (h1 : strIn "word_key" (attrsClass attrs) = false) :
    ((handle_starttag s "span" attrs).in_pron_uk =
      (strIn "pron type_uk" (attrsClass attrs) || s.in_pron_uk)) ∧
    (strIn "pron type_uk" (attrsClass attrs) = false →
      (handle_starttag s "span" attrs).in_pron_us =
        (strIn "pron type_us" (attrsClass attrs) || s.in_pron_us)) ∧
    (strIn "pron type_uk" (attrsClass attrs) = false →
      strIn "pron type_us" (attrsClass attrs) = false →
      (handle_starttag s "span" attrs).in_num =
        ((attrsClass attrs == "num") || s.in_num)) ∧
    (strIn "pron type_uk" (attrsClass attrs) = false →
      strIn "pron type_us" (attrsClass attrs) = false →
      (attrsClass attrs == "num") = false →
      (handle_starttag s "span" attrs).in_st =
        ((attrsClass attrs == "st") || s.in_st)) ∧
    handle_starttag initState "span" [("class", "pron")] =
      { initState with tag_stack := [("span", "pron")] } := by
  rw [handle_starttag_eq]
  obtain ⟨p1, p2, p3, p4, _⟩ := starttagChain2_classifierFields
    (starttagChain1
      { s with tag_stack := ("span", attrsClass attrs) :: s.tag_stack }
      "span" (attrsClass attrs) (s.tag_stack.length + 1))
    "span" (attrsClass attrs) (s.tag_stack.length + 1)
  refine ⟨?_, fun huk => ?_, fun huk hus => ?_, fun huk hus hnum => ?_, rfl⟩
  · rw [p1, starttagChain1_span_uk _ _ _ h1]
  · rw [p2, starttagChain1_span_us _ _ _ h1 huk]
  · rw [p3, starttagChain1_span_num _ _ _ h1 huk hus]
  · rw [p4, starttagChain1_span_st _ _ _ h1 huk hus hnum]

/-- Witness for the amended C9: exact `"st"` capture fires, and the
contiguous `"pron type_uk"` marker activates UK accumulation. -/
theorem c9_amended_classifier_witness :
    (handle_starttag initState "span" [("class", "st")]).in_st =
      ((attrsClass [("class", "st")] == "st") || initState.in_st) ∧
    (handle_starttag initState "span"
        [("class", "pron type_uk")]).in_pron_uk =
      (strIn "pron type_uk" (attrsClass [("class", "pron type_uk")])
        || initState.in_pron_uk) :=
  ⟨(c9_amended_classifier initState [("class", "st")] rfl).2.2.2.1
      rfl rfl rfl,
   (c9_amended_classifier initState [("class", "pron type_uk")] rfl).1⟩

theorem starttagChain1_phonetic_uk (s : ParserState) (tag cls : String)
    (n : Nat) : (starttagChain1 s tag cls n).phonetic_uk = s.phonetic_uk := by
  unfold starttagChain1
  repeat' split
  all_goals rfl

theorem starttagChain2_phonetic_uk (s : ParserState) (tag cls : String)
    (n : Nat) : (starttagChain2 s tag cls n).phonetic_uk = s.phonetic_uk := by
  unfold starttagChain2
  repeat' split
  all_goals rfl

theorem handle_starttag_phonetic_uk (s : ParserState) (tag : String)
    (attrs : List (String × String)) :
    (handle_starttag s tag attrs).phonetic_uk = s.phonetic_uk := by
  rw [handle_starttag_eq, starttagChain2_phonetic_uk,
    starttagChain1_phonetic_uk]

/-- Let-free restatement of `handle_data` (definitional). -/
theorem handle_data_eq (s : ParserState) (data : String) :
    handle_data s data =
      (if (pyStrip data == "") then s
      else if s.in_word_key then { s with word := pyStrip data }
      else if s.in_pron_uk then
        { s with current_pron_uk := s.current_pron_uk ++ data }
      else if s.in_pron_us then
        { s with current_pron_us := s.current_pron_us ++ data }
      else if s.in_orth then
        if isFormText (pyStrip data) then
          { s with forms := s.forms ++ [pyStrip data] }
        else s
      else dataChainDef s data (pyStrip data)) := rfl

theorem dataChainLi_phonetic_uk (s : ParserState) (data text : String) :
    (dataChainLi s data text).phonetic_uk = s.phonetic_uk := by
  unfold dataChainLi withDef
  repeat' split
  all_goals rfl

theorem dataChainDef_phonetic_uk (s : ParserState) (data text : String) :
    (dataChainDef s data text).phonetic_uk = s.phonetic_uk := by
  unfold dataChainDef withDef
  repeat' split
  all_goals first
    | rfl
    | exact dataChainLi_phonetic_uk s data text

theorem handle_data_phonetic_uk (s : ParserState) (data : String) :
    (handle_data s data).phonetic_uk = s.phonetic_uk := by
  rw [handle_data_eq]
  repeat' split
  all_goals first
    | rfl
    | exact dataChainDef_phonetic_uk s data (pyStrip data)

theorem endtagSpan_phonetic_uk_append (s : ParserState) (n : Nat) :
    ∃ t, (endtagSpan s n).phonetic_uk = s.phonetic_uk ++ t := by
  simp only [endtagSpan]
  repeat' split
  all_goals first
    | exact ⟨[], (List.append_nil _).symm⟩
    | exact ⟨[pyStrip s.current_pron_uk], rfl⟩

theorem endtagDiv_phonetic_uk (s : ParserState) :
    (endtagDiv s).phonetic_uk = s.phonetic_uk := by
  simp only [endtagDiv]
  repeat' split
  all_goals rfl

theorem endtagLi_phonetic_uk (s : ParserState) :
    (endtagLi s).phonetic_uk = s.phonetic_uk := by
  simp only [endtagLi, appendExample]
  repeat' split
  all_goals rfl

theorem handle_endtag_phonetic_uk_append (s : ParserState) (tag : String) :
    ∃ t, (handle_endtag s tag).phonetic_uk = s.phonetic_uk ++ t := by
  unfold handle_endtag
  split
  · exact ⟨[], (List.append_nil _).symm⟩
  · show ∃ t, (endtagDispatch s tag s.tag_stack.length).phonetic_uk
      = s.phonetic_uk ++ t
    unfold endtagDispatch
    split
    · exact endtagSpan_phonetic_uk_append s _
    split
    · exact ⟨[], by rw [endtagDiv_phonetic_uk, List.append_nil]⟩
    split
    · split
      · exact ⟨[], (List.append_nil _).symm⟩
      · exact ⟨[], (List.append_nil _).symm⟩
    split
    · exact ⟨[], by rw [endtagLi_phonetic_uk, List.append_nil]⟩
    split
    · exact ⟨[], (List.append_nil _).symm⟩
    · exact ⟨[], (List.append_nil _).symm⟩

theorem starttagChain1_phonetic_us (s : ParserState) (tag cls : String)
    (n : Nat) : (starttagChain1 s tag cls n).phonetic_us = s.phonetic_us := by
  unfold starttagChain1
  repeat' split
  all_goals rfl

theorem starttagChain2_phonetic_us (s : ParserState) (tag cls : String)
    (n : Nat) : (starttagChain2 s tag cls n).phonetic_us = s.phonetic_us := by
  unfold starttagChain2
  repeat' split
  all_goals rfl

theorem handle_starttag_phonetic_us (s : ParserState) (tag : String)
    (attrs : List (String × String)) :
    (handle_starttag s tag attrs).phonetic_us = s.phonetic_us := by
  rw [handle_starttag_eq, starttagChain2_phonetic_us,
    starttagChain1_phonetic_us]

theorem dataChainLi_phonetic_us (s : ParserState) (data text : String) :
    (dataChainLi s data text).phonetic_us = s.phonetic_us := by
  unfold dataChainLi withDef
  repeat' split
  all_goals rfl

theorem dataChainDef_phonetic_us (s : ParserState) (data text : String) :
    (dataChainDef s data text).phonetic_us = s.phonetic_us := by
  unfold dataChainDef withDef
  repeat' split
  all_goals first
    | rfl
    | exact dataChainLi_phonetic_us s data text

theorem handle_data_phonetic_us (s : ParserState) (data : String) :
    (handle_data s data).phonetic_us = s.phonetic_us := by
  rw [handle_data_eq]
  repeat' split
  all_goals first
    | rfl
    | exact dataChainDef_phonetic_us s data (pyStrip data)

theorem endtagSpan_phonetic_us_append (s : ParserState) (n : Nat) :
    ∃ t, (endtagSpan s n).phonetic_us = s.phonetic_us ++ t := by
  simp only [endtagSpan]
  repeat' split
  all_goals first
    | exact ⟨[], (List.append_nil _).symm⟩
    | exact ⟨[pyStrip s.current_pron_us], rfl⟩

theorem endtagDiv_phonetic_us (s : ParserState) :
    (endtagDiv s).phonetic_us = s.phonetic_us := by
  simp only [endtagDiv]
  repeat' split
  all_goals rfl

theorem endtagLi_phonetic_us (s : ParserState) :
    (endtagLi s).phonetic_us = s.phonetic_us := by
  simp only [endtagLi, appendExample]
  repeat' split
  all_goals rfl

theorem handle_endtag_phonetic_us_append (s : ParserState) (tag : String) :
    ∃ t, (handle_endtag s tag).phonetic_us = s.phonetic_us ++ t := by
  unfold handle_endtag
  split
  · exact ⟨[], (List.append_nil _).symm⟩
  · show ∃ t, (endtagDispatch s tag s.tag_stack.length).phonetic_us
      = s.phonetic_us ++ t
    unfold endtagDispatch
    split
    · exact endtagSpan_phonetic_us_append s _
    split
    · exact ⟨[], by rw [endtagDiv_phonetic_us, List.append_nil]⟩
    split
    · split
      · exact ⟨[], (List.append_nil _).symm⟩
      · exact ⟨[], (List.append_nil _).symm⟩
    split
    · exact ⟨[], by rw [endtagLi_phonetic_us, List.append_nil]⟩
    split
    · exact ⟨[], (List.append_nil _).symm⟩
    · exact ⟨[], (List.append_nil _).symm⟩

/-- Events with a UK pronunciation scope whose runs are `"a"`, `" "` (all
whitespace) and `"b"`. -/
def blankMidPronEvents : List Event :=
  [.startTag "span" [("class", "pron type_uk")],
   .text "a", .text " ", .text "b", .endTag "span"]

/-- Events with two UK pronunciation scopes carrying text. -/
def twoUkPronEvents : List Event :=
  [.startTag "span" [("class", "pron type_uk")],
   .text "first", .endTag "span",
   .startTag "span" [("class", "pron type_uk")],
   .text "second", .endTag "span"]

/-- Events with two US pronunciation scopes carrying text. -/
def twoUsPronEvents : List Event :=
  [.startTag "span" [("class", "pron type_us")],
   .text "first", .endTag "span",
   .startTag "span" [("class", "pron type_us")],
   .text "second", .endTag "span"]

theorem endtagSpan_uk_close (s : ParserState) (n : Nat)
    (hc : (s.in_pron_uk && n == s.pron_uk_depth) = true) :
    ((endtagSpan s n).phonetic_uk =
      if pyStrip s.current_pron_uk ≠ "" then
        s.phonetic_uk ++ [pyStrip s.current_pron_uk]
      else s.phonetic_uk) ∧
    (endtagSpan s n).in_pron_uk = false := by
  simp only [endtagSpan, hc, if_true]
  refine ⟨?_, ?_⟩
  · split
    all_goals simp_all
  · trivial

/-- C5 counterexample: a whitespace-only run inside a pronunciation scope
is discarded before accumulation, so the contributed value is the trimmed
concatenation of the NON-BLANK runs only.  For runs `"a"`, `" "`, `"b"`
the scope contributes `"ab"`, while the trimmed concatenation of all its
text runs is `"a b"`. -/
theorem c5_counterexample :
    (runParser blankMidPronEvents).phonetic_uk = "ab" ∧
    pyStrip ("a" ++ " " ++ "b") = "a b" ∧
    ("ab" : String) ≠ "a b" :=
  ⟨rfl, rfl, by decide⟩

theorem endtagSpan_us_close (s : ParserState) (n : Nat)
    (hcuk : (s.in_pron_uk && n == s.pron_uk_depth) = false)
    (hc : (s.in_pron_us && n == s.pron_us_depth) = true) :
    ((endtagSpan s n).phonetic_us =
      if pyStrip s.current_pron_us ≠ "" then
        s.phonetic_us ++ [pyStrip s.current_pron_us]
      else s.phonetic_us) ∧
    (endtagSpan s n).in_pron_us = false := by
  simp only [endtagSpan, hcuk, Bool.false_eq_true, if_false, hc, if_true]
  refine ⟨?_, ?_⟩
  · split
    all_goals simp_all
  · trivial

/-- C5 (amended): a UK (resp. US) pronunciation scope contributes, at the
close event observed at its owning depth, the trimmed concatenation of its
non-blank text runs, and only if that trimmed value is non-empty (for the
US side, with the UK elif declining the event first); non-blank runs are
appended verbatim to the respective buffer; finalization joins each
collected list with `" / "` in encounter order (empty list giving `""`),
and no event ever rewrites an already-collected list (each step only
appends to it); two UK (resp. US) scopes with text yield
`"first / second"`. -/
theorem c5_amended_pron (s : ParserState) (data : String) :
    (s.tag_stack ≠ [] → s.in_pron_uk = true →
      s.tag_stack.length = s.pron_uk_depth →
      ((handle_endtag s "span").phonetic_uk =
        if pyStrip s.current_pron_uk ≠ "" then
          s.phonetic_uk ++ [pyStrip s.current_pron_uk]
        else s.phonetic_uk) ∧
      (handle_endtag s "span").in_pron_uk = false) ∧
    (s.tag_stack ≠ [] →
      (s.in_pron_uk && s.tag_stack.length == s.pron_uk_depth) = false →
      s.in_pron_us = true → s.tag_stack.length = s.pron_us_depth →
      ((handle_endtag s "span").phonetic_us =
        if pyStrip s.current_pron_us ≠ "" then
          s.phonetic_us ++ [pyStrip s.current_pron_us]
        else s.phonetic_us) ∧
      (handle_endtag s "span").in_pron_us = false) ∧
    (s.in_word_key = false → s.in_pron_uk = true → pyStrip data ≠ "" →
      (handle_data s data).current_pron_uk = s.current_pron_uk ++ data) ∧
    (s.in_word_key = false → s.in_pron_uk = false → s.in_pron_us = true →
      pyStrip data ≠ "" →
      (handle_data s data).current_pron_us = s.current_pron_us ++ data) ∧
    ((get_result s).phonetic_uk =
      if s.phonetic_uk.isEmpty then ""
      else String.intercalate " / " s.phonetic_uk) ∧
    ((get_result s).phonetic_us =
      if s.phonetic_us.isEmpty then ""
      else String.intercalate " / " s.phonetic_us) ∧
    (∀ e : Event, ∃ t, (step s e).phonetic_uk = s.phonetic_uk ++ t) ∧
    (∀ e : Event, ∃ t, (step s e).phonetic_us = s.phonetic_us ++ t) ∧
    (runParser twoUkPronEvents).phonetic_uk = "first / second" ∧
    (runParser twoUsPronEvents).phonetic_us = "first / second" ∧
    (runParser []).phonetic_uk = "" ∧
    (runParser []).phonetic_us = "" := by
  refine ⟨?_, ?_, ?_, ?_, rfl, rfl, ?_, ?_, rfl, rfl, rfl, rfl⟩
  · intro hne huk hdep
    have hn : ¬s.tag_stack.isEmpty = true := by simp [hne]
    have hc : (s.in_pron_uk && s.tag_stack.length == s.pron_uk_depth)
        = true := by
      rw [huk, hdep]
      simp
    have hdisp : handle_endtag s "span" =
        { endtagSpan s s.tag_stack.length with
            tag_stack := (endtagSpan s s.tag_stack.length).tag_stack.tail }
        := by
      unfold handle_endtag
      rw [if_neg hn]
      rfl
    rw [hdisp]
    exact endtagSpan_uk_close s s.tag_stack.length hc
  · intro hne hcuk hus hdep
    have hn : ¬s.tag_stack.isEmpty = true := by simp [hne]
    have hc : (s.in_pron_us && s.tag_stack.length == s.pron_us_depth)
        = true := by
      rw [hus, hdep]
      simp
    have hdisp : handle_endtag s "span" =
        { endtagSpan s s.tag_stack.length with
            tag_stack := (endtagSpan s s.tag_stack.length).tag_stack.tail }
        := by
      unfold handle_endtag
      rw [if_neg hn]
      rfl
    rw [hdisp]
    exact endtagSpan_us_close s s.tag_stack.length hcuk hc
  · intro hw huk hdata
    have h0 : (pyStrip data == "") = false := beq_eq_false_iff_ne.mpr hdata
    simp [handle_data, h0, hw, huk]
  · intro hw huk hus hdata
    have h0 : (pyStrip data == "") = false := beq_eq_false_iff_ne.mpr hdata
    simp [handle_data, h0, hw, huk, hus]
  · intro e
    cases e with
    | startTag tag attrs =>
      refine ⟨[], ?_⟩
      rw [List.append_nil]
      exact handle_starttag_phonetic_uk s tag attrs
    | endTag tag => exact handle_endtag_phonetic_uk_append s tag
    | text d =>
      refine ⟨[], ?_⟩
      rw [List.append_nil]
      exact handle_data_phonetic_uk s d
  · intro e
    cases e with
    | startTag tag attrs =>
      refine ⟨[], ?_⟩
      rw [List.append_nil]
      exact handle_starttag_phonetic_us s tag attrs
    | endTag tag => exact handle_endtag_phonetic_us_append s tag
    | text d =>
      refine ⟨[], ?_⟩
      rw [List.append_nil]
      exact handle_data_phonetic_us s d

/-- A concrete state inside an open UK pronunciation scope at depth 1 with
buffered text `" ka "`. -/
def ukPronState : ParserState :=
  { initState with
      tag_stack := [("span", "pron type_uk")]
      in_pron_uk := true, pron_uk_depth := 1, current_pron_uk := " ka " }

/-- A concrete state inside an open US pronunciation scope at depth 1 with
buffered text `" ga "` (the UK flag is off). -/
def usPronState : ParserState :=
  { initState with
      tag_stack := [("span", "pron type_us")]
      in_pron_us := true, pron_us_depth := 1, current_pron_us := " ga " }

/-- Witness for the amended C5 at concrete UK and US pronunciation
scopes: close-time contribution and verbatim run accumulation on both
sides. -/
theorem c5_amended_pron_witness :
    ((handle_endtag ukPronState "span").phonetic_uk =
      if pyStrip ukPronState.current_pron_uk ≠ "" then
        ukPronState.phonetic_uk ++ [pyStrip ukPronState.current_pron_uk]
      else ukPronState.phonetic_uk) ∧
    (handle_endtag ukPronState "span").in_pron_uk = false ∧
    (handle_data ukPronState "x y").current_pron_uk =
      ukPronState.current_pron_uk ++ "x y" ∧
    ((handle_endtag usPronState "span").phonetic_us =
      if pyStrip usPronState.current_pron_us ≠ "" then
        usPronState.phonetic_us ++ [pyStrip usPronState.current_pron_us]
      else usPronState.phonetic_us) ∧
    (handle_endtag usPronState "span").in_pron_us = false ∧
    (handle_data usPronState "z w").current_pron_us =
      usPronState.current_pron_us ++ "z w" := by
  obtain ⟨h1, _, h3, _, _, _, _, _, _, _, _, _⟩ :=
    c5_amended_pron ukPronState "x y"
  obtain ⟨ha, hb⟩ := h1 (by decide) rfl rfl
  obtain ⟨_, h2, _, h4, _, _, _, _, _, _, _, _⟩ :=
    c5_amended_pron usPronState "z w"
  obtain ⟨hc, hd⟩ := h2 (by decide) (by decide) rfl rfl
  exact ⟨ha, hb, h3 rfl rfl (by decide), hc, hd,
    h4 rfl rfl rfl (by decide)⟩

theorem dedupFirst_step (acc : List String) (f : String) :
    (if acc.contains f then acc else acc ++ [f]) =
      (if f ∈ acc then acc else acc ++ [f]) := by
  by_cases h : f ∈ acc
  · rw [if_pos h, if_pos (by simpa using h)]
  · rw [if_neg h, if_neg (by simpa using h)]

theorem dedupFirst_go_mem (l acc : List String) (x : String) :
    x ∈ l.foldl
        (fun acc f => if acc.contains f then acc else acc ++ [f]) acc ↔
      x ∈ acc ∨ x ∈ l := by
  induction l generalizing acc with
  | nil => simp
  | cons h t ih =>
    rw [List.foldl_cons, ih, dedupFirst_step]
    by_cases hm : h ∈ acc
    · rw [if_pos hm]
      constructor
      · rintro (hx | hx)
        · exact Or.inl hx
        · exact Or.inr (List.mem_cons_of_mem h hx)
      · rintro (hx | hx)
        · exact Or.inl hx
        · rcases List.mem_cons.mp hx with hx | hx
          · exact Or.inl (hx ▸ hm)
          · exact Or.inr hx
    · rw [if_neg hm]
      simp only [List.mem_append, List.mem_singleton, List.mem_cons]
      tauto

theorem dedupFirst_go_nodup (l acc : List String) (hn : acc.Nodup) :
    (l.foldl (fun acc f => if acc.contains f then acc else acc ++ [f])
      acc).Nodup := by
  induction l generalizing acc with
  | nil => simpa using hn
  | cons h t ih =>
    rw [List.foldl_cons, dedupFirst_step]
    by_cases hm : h ∈ acc
    · rw [if_pos hm]
      exact ih acc hn
    · rw [if_neg hm]
      refine ih _ ?_
      simpa [List.nodup_append, hn] using hm

theorem dedupFirst_mem (l : List String) (x : String) :
    x ∈ dedupFirst l ↔ x ∈ l := by
  unfold dedupFirst
  rw [dedupFirst_go_mem]
  simp

theorem dedupFirst_nodup (l : List String) : (dedupFirst l).Nodup :=
  dedupFirst_go_nodup l [] List.nodup_nil

theorem dedupFirst_snoc (l : List String) (x : String) :
    dedupFirst (l ++ [x]) =
      if x ∈ l then dedupFirst l else dedupFirst l ++ [x] := by
  have hmm : x ∈ dedupFirst l ↔ x ∈ l := dedupFirst_mem l x
  unfold dedupFirst at hmm ⊢
  rw [List.foldl_append, List.foldl_cons, List.foldl_nil, dedupFirst_step]
  by_cases hm : x ∈ l
  · rw [if_pos (hmm.mpr hm), if_pos hm]
  · rw [if_neg (fun hc => hm (hmm.mp hc)), if_neg hm]

/-- C6: a word-form text run is appended (trimmed) exactly when its trimmed
text matches `^[a-zA-Z\-' ]+$`, so every string entering the forms list is
a non-empty string of ASCII letters, hyphens, apostrophes and spaces; at
finalization the forms list is de-duplicated preserving first-seen order
(characterized by: the output has no duplicates, keeps exactly the input's
members, and appending an already-seen form changes nothing while a new
form is appended at the end), and `["runs", "running", "runs"]`
de-duplicates to `["runs", "running"]`. -/
theorem c6_forms (s : ParserState) (data x : String) (l : List String)
    (hw : s.in_word_key = false) (hu : s.in_pron_uk = false)
    (hv : s.in_pron_us = false) (ho : s.in_orth = true) :
    ((handle_data s data).forms =
      if isFormText (pyStrip data) then s.forms ++ [pyStrip data]
      else s.forms) ∧
    (∀ f ∈ (handle_data s data).forms, f ∈ s.forms ∨
      (f.data ≠ [] ∧
        ∀ c ∈ f.data, c.isAlpha ∨ c = '-' ∨ c = '\'' ∨ c = ' ')) ∧
    ((get_result s).forms = dedupFirst s.forms) ∧
    (dedupFirst (l ++ [x]) =
      if x ∈ l then dedupFirst l else dedupFirst l ++ [x]) ∧
    dedupFirst ([] : List String) = [] ∧
    (dedupFirst s.forms).Nodup ∧
    (∀ y, y ∈ dedupFirst s.forms ↔ y ∈ s.forms) ∧
    dedupFirst ["runs", "running", "runs"] = ["runs", "running"] := by
  have hforms : (handle_data s data).forms =
      if isFormText (pyStrip data) then s.forms ++ [pyStrip data]
      else s.forms := by
    rw [handle_data_eq]
    by_cases h0 : (pyStrip data == "")
    · have h0' : pyStrip data = "" := by simpa using h0
      rw [if_pos h0]
      have : isFormText (pyStrip data) = false := by
        rw [h0']
        rfl
      rw [this]
      simp
    · rw [if_neg h0, if_neg (by simp [hw]), if_neg (by simp [hu]),
        if_neg (by simp [hv]), if_pos (by simp [ho])]
      split
      all_goals simp
  refine ⟨hforms, ?_, rfl, dedupFirst_snoc l x, rfl, dedupFirst_nodup _,
    fun y => dedupFirst_mem _ y, rfl⟩
  intro f hf
  rw [hforms] at hf
  by_cases hift : isFormText (pyStrip data)
  · rw [if_pos hift] at hf
    rcases List.mem_append.mp hf with hf | hf
    · exact Or.inl hf
    · right
      rw [List.mem_singleton.mp hf]
      unfold isFormText at hift
      simp only [Bool.and_eq_true, List.all_eq_true] at hift
      obtain ⟨h1, h2⟩ := hift
      refine ⟨by simpa using h1, fun c hc => ?_⟩
      have := h2 c hc
      simp only [Bool.or_eq_true, beq_iff_eq] at this
      tauto
  · rw [if_neg hift] at hf
    exact Or.inl hf

/-- A concrete state inside a word-form scope. -/
def orthState : ParserState :=
  { initState with in_orth := true, forms := ["runs"] }

/-- Witness for C6 at a concrete accepted form and the claim's concrete
de-duplication example. -/
theorem c6_forms_witness :
    ((handle_data orthState " running ").forms =
      if isFormText (pyStrip " running ") then
        orthState.forms ++ [pyStrip " running "]
      else orthState.forms) ∧
    dedupFirst ["runs", "running", "runs"] = ["runs", "running"] := by
  obtain ⟨h1, _, _, _, _, _, _, h8⟩ :=
    c6_forms orthState " running " "x" [] rfl rfl rfl rfl
  exact ⟨h1, h8⟩

theorem endtagDiv_example_close (s : ParserState) (d : SenseDef)
    (hcond : (!s.tag_stack.isEmpty &&
      strIn "collins_en_cn example" (topClass s)) = true)
    (hex : s.in_example = true) (hd : s.current_def = some d) :
    ((endtagDiv s).definitions =
      if d.en ≠ "" ∨ d.cn ≠ "" then s.definitions ++ [d]
      else s.definitions) ∧
    (endtagDiv s).in_example = false ∧
    (endtagDiv s).current_def = none := by
  simp only [endtagDiv, hex, hd, hcond, if_true]
  repeat' split
  all_goals simp_all

/-- C7: when the block that opened the current Sense Definition closes (a
`div` close event with the `collins_en_cn example` frame on top of the
stack and the example flag set), the definition is appended to the
result's definitions list if and only if its English or Chinese gloss is
non-empty; the example flag and the current definition are then reset. -/
theorem c7_sense_retention (s : ParserState) (d : SenseDef) (t c : String)
    (rest : List (String × String))
    (hst : s.tag_stack = (t, c) :: rest)
    (hcls : strIn "collins_en_cn example" c = true)
    (hex : s.in_example = true)
    (hd : s.current_def = some d) :
    ((handle_endtag s "div").definitions =
      if d.en ≠ "" ∨ d.cn ≠ "" then s.definitions ++ [d]
      else s.definitions) ∧
    (handle_endtag s "div").in_example = false ∧
    (handle_endtag s "div").current_def = none := by
  have hn : ¬s.tag_stack.isEmpty = true := by simp [hst]
  have hdisp : handle_endtag s "div" =
      { endtagDiv s with tag_stack := (endtagDiv s).tag_stack.tail } := by
    unfold handle_endtag
    rw [if_neg hn]
    rfl
  have hcond : (!s.tag_stack.isEmpty &&
      strIn "collins_en_cn example" (topClass s)) = true := by
    simp [topClass, hst, hcls]
  rw [hdisp]
  exact endtagDiv_example_close s d hcond hex hd

/-- A concrete state at the close of an example block whose definition has
a non-empty English gloss. -/
def exampleDivState : ParserState :=
  { initState with
      tag_stack := [("div", "collins_en_cn example")]
      in_example := true
      current_def := some { freshDef with en := "E " } }

/-- Witness for C7: the concrete close event retains the definition (its
English gloss is non-empty) and resets the example state. -/
theorem c7_sense_retention_witness :
    ((handle_endtag exampleDivState "div").definitions =
      if ({ freshDef with en := "E " } : SenseDef).en ≠ "" ∨
          ({ freshDef with en := "E " } : SenseDef).cn ≠ "" then
        exampleDivState.definitions ++ [{ freshDef with en := "E " }]
      else exampleDivState.definitions) ∧
    (handle_endtag exampleDivState "div").in_example = false ∧
    (handle_endtag exampleDivState "div").current_def = none :=
  c7_sense_retention exampleDivState { freshDef with en := "E " }
    "div" "collins_en_cn example" [] rfl rfl rfl rfl

/-- Event sequence of an example block whose list item has direct text
`"x"` between its first and second paragraphs (the `def_cn` span gives the
definition a gloss so it is retained at the block close). -/
def strayTextEvents : List Event :=
  [.startTag "div" [("class", "collins_en_cn example")],
   .startTag "span" [("class", "def_cn cn_before")],
   .text "g",
   .endTag "span",
   .startTag "li" [],
   .startTag "p" [],
   .text "A",
   .endTag "p",
   .text "x",
   .startTag "p" [],
   .text "B",
   .endTag "p",
   .endTag "li",
   .endTag "div"]

/-- C8 counterexample: English-side accumulation is keyed on the paragraph
COUNTER (`self._li_p_count == 1`), not on being inside the first
paragraph.  The item's first paragraph holds only the run `"A"`, but the
stray run `"x"` between the two paragraphs is also collected, so the
produced English sentence is `"A x"`, not the first paragraph's `"A"`. -/
theorem c8_counterexample :
    (runParser strayTextEvents).definitions.map SenseDef.examples =
      [[("A x", "B")]] ∧
    ("A x" : String) ≠ "A" :=
  ⟨rfl, by decide⟩

theorem endtagLi_close (s : ParserState) (d : SenseDef)
    (hli : s.in_li = true) (hd : s.current_def = some d) :
    (pyStrip s.current_example_en ≠ "" ∨ pyStrip s.current_example_cn ≠ ""
      → (endtagLi s).current_def = some { d with examples :=
          d.examples ++
            [(pyStrip s.current_example_en,
              pyStrip s.current_example_cn)] }) ∧
    (pyStrip s.current_example_en = "" → pyStrip s.current_example_cn = ""
      → (endtagLi s).current_def = some d) ∧
    (endtagLi s).in_li = false := by
  simp only [endtagLi, hli, hd, appendExample]
  refine ⟨?_, ?_, ?_⟩
  · intro h
    rw [if_pos (by simpa using h)]
  · intro h1 h2
    rw [if_neg (by simp [h1, h2])]
    exact hd
  · trivial

/-- C8 (amended): inside a list item of an open Sense Definition, a
non-blank run observed while the paragraph counter equals 1 (a run of the
first paragraph, or direct item text after the first paragraph closes and
before the second opens) is appended to the English buffer as `run ++ " "`
(so runs join with single spaces, trailing space trimmed at close); a run
observed while the counter is at least 2 is trimmed and appended to the
Chinese buffer with no separator; on the item's close the trimmed pair is
attached to the Sense Definition's example list exactly when at least one
side is non-empty, and an item with only an English paragraph yields an
example whose Chinese sentence is empty. -/
theorem c8_amended_examples (s : ParserState) (data : String)
    (hw : s.in_word_key = false) (hu : s.in_pron_uk = false)
    (hv : s.in_pron_us = false) (ho : s.in_orth = false)
    (hn : s.in_num = false) (hs : s.in_st = false)
    (hdcn : s.in_def_cn = false) (hli : s.in_li = true) :
    (s.li_p_count = 1 → pyStrip data ≠ "" →
      (handle_data s data).current_example_en =
        s.current_example_en ++ data ++ " ") ∧
    (2 ≤ s.li_p_count → pyStrip data ≠ "" →
      (handle_data s data).current_example_cn =
        s.current_example_cn ++ pyStrip data) ∧
    (∀ d : SenseDef, s.current_def = some d → s.tag_stack ≠ [] →
      (pyStrip s.current_example_en ≠ "" ∨
          pyStrip s.current_example_cn ≠ "" →
        (handle_endtag s "li").current_def = some { d with examples :=
          d.examples ++
            [(pyStrip s.current_example_en,
              pyStrip s.current_example_cn)] }) ∧
      (pyStrip s.current_example_en = "" →
          pyStrip s.current_example_cn = "" →
        (handle_endtag s "li").current_def = some d) ∧
      (handle_endtag s "li").in_li = false) ∧
    (runParser
      [.startTag "div" [("class", "collins_en_cn example")],
       .startTag "span" [("class", "def_cn cn_before")],
       .text "g", .endTag "span",
       .startTag "li" [],
       .startTag "p" [], .text "Hello", .endTag "p",
       .endTag "li", .endTag "div"]).definitions.map SenseDef.examples =
      [[("Hello", "")]] := by
  refine ⟨?_, ?_, ?_, rfl⟩
  · intro hcount hdata
    have h0 : (pyStrip data == "") = false := beq_eq_false_iff_ne.mpr hdata
    simp [handle_data_eq, dataChainDef, dataChainLi, h0, hw, hu, hv, ho,
      hn, hs, hdcn, hli, hcount]
  · intro hcount hdata
    have h0 : (pyStrip data == "") = false := beq_eq_false_iff_ne.mpr hdata
    have h1 : (s.li_p_count == 1) = false := by
      have : s.li_p_count ≠ 1 := by omega
      simpa using this
    simp [handle_data_eq, dataChainDef, dataChainLi, h0, hw, hu, hv, ho,
      hn, hs, hdcn, hli, h1, hcount]
  · intro d hd hne
    have hn' : ¬s.tag_stack.isEmpty = true := by simp [hne]
    have hdisp : handle_endtag s "li" =
        { endtagLi s with tag_stack := (endtagLi s).tag_stack.tail } := by
      unfold handle_endtag
      rw [if_neg hn']
      rfl
    rw [hdisp]
    exact endtagLi_close s d hli hd

/-- A concrete state inside a list item after one paragraph. -/
def liState : ParserState :=
  { initState with
      tag_stack := [("li", ""), ("div", "collins_en_cn example")]
      in_example := true, in_li := true, li_p_count := 1
      current_def := some freshDef
      current_example_en := "Hi there " }

/-- Witness for the amended C8: a run is appended to the English buffer
with a trailing space, and the item close attaches the trimmed pair. -/
theorem c8_amended_examples_witness :
    ((handle_data liState "you").current_example_en =
      liState.current_example_en ++ "you" ++ " ") ∧
    (handle_endtag liState "li").current_def = some { freshDef with
      examples := freshDef.examples ++
        [(pyStrip liState.current_example_en,
          pyStrip liState.current_example_cn)] } ∧
    (handle_endtag liState "li").in_li = false := by
  obtain ⟨h1, _, h3, _⟩ := c8_amended_examples liState "you"
    rfl rfl rfl rfl rfl rfl rfl rfl
  obtain ⟨ha, _, hc⟩ := h3 freshDef rfl (by decide)
  exact ⟨h1 rfl (by decide), ha (Or.inl (by decide)), hc⟩
